import Mathlib

/-!
Shallow embedding of the Cloudflare load-balancer worker scripts:

* `src/examples/load-balancer.js` — health-aware balancer (health records,
  circuit breaker, smart/failover/weighted selection, retrying dispatch);
* `src/examples/multi-app-config.js` — multi-app balancer with a short-TTL
  down-cache, a last-resort bypass attempt and WebSocket pass-through;
* `src/unnamed/part_000` and `src/unnamed/part_001` — simple failover
  variants sharing the same retrying `tryServer`.

JavaScript numbers are modelled as `Nat` (timestamps, counters, statuses)
and `ℚ` (weights, latencies: no claim depends on float rounding), the
network as an explicit oracle of per-attempt outcomes, and the mutable
module-level maps as explicitly threaded total functions with the lazily
created default record baked in.
-/

namespace LB

/-- `CONFIG.SMART.FAILURE_THRESHOLD` in `load-balancer.js`. -/
def FAILURE_THRESHOLD : Nat := 3

/-- `CONFIG.SMART.CIRCUIT_RESET_TIME` (ms) in `load-balancer.js`. -/
def CIRCUIT_RESET_TIME : Nat := 30000

/-- `CONFIG.SMART.SLOW_THRESHOLD` (ms) in `load-balancer.js`. -/
def SLOW_THRESHOLD : ℚ := 2000

/-- `CONFIG.SMART.MIN_WEIGHT` in `load-balancer.js`. -/
def MIN_WEIGHT : ℚ := 10

/-- `CONFIG.SMART.MAX_WEIGHT` in `load-balancer.js`. -/
def MAX_WEIGHT : ℚ := 90

/-- `CONFIG.RETRIES` in `load-balancer.js`, `part_000` and `part_001`. -/
def RETRIES : Nat := 1

/-- One per-server health record of `load-balancer.js` (`serverHealth` map
entries; field names follow the source object literal). -/
structure HealthRecord where
  failures : Nat
  lastFailure : Nat
  avgResponseTime : ℚ
  requestCount : Nat
  circuitOpen : Bool
deriving DecidableEq, Repr

/-- The record `getServerHealth` creates lazily on first reference. -/
def defaultHealth : HealthRecord :=
  { failures := 0, lastFailure := 0, avgResponseTime := 0,
    requestCount := 0, circuitOpen := false }

/-- `recordSuccess` of `load-balancer.js` acting on one record:
bump `requestCount`, fold `responseTime` into the rolling average with
weight `1 / min requestCount 100`, reset failures, close the circuit. -/
def recordSuccessRec (responseTime : ℚ) (h : HealthRecord) : HealthRecord :=
  let rc := h.requestCount + 1
  { h with
      requestCount := rc,
      avgResponseTime :=
        h.avgResponseTime + (responseTime - h.avgResponseTime) / ((min rc 100 : Nat) : ℚ),
      failures := 0,
      circuitOpen := false }

/-- `recordFailure` of `load-balancer.js` acting on one record:
bump `failures`, stamp `lastFailure := now`, and open the circuit once
`failures >= FAILURE_THRESHOLD`. -/
def recordFailureRec (now : Nat) (h : HealthRecord) : HealthRecord :=
  let f := h.failures + 1
  { h with
      failures := f,
      lastFailure := now,
      circuitOpen := if FAILURE_THRESHOLD ≤ f then true else h.circuitOpen }

/-- `isCircuitOpen` of `load-balancer.js` acting on one record.  Returns the
reported open flag together with the (possibly mutated) record: when the
circuit is open and `CIRCUIT_RESET_TIME` has elapsed since `lastFailure`,
the check itself clears the flag and sets `failures := FAILURE_THRESHOLD - 1`
(the half-open transition), reporting the server as available. -/
def isCircuitOpenRec (now : Nat) (h : HealthRecord) : Bool × HealthRecord :=
  if h.circuitOpen = false then (false, h)
  else if (CIRCUIT_RESET_TIME : ℤ) ≤ (now : ℤ) - (h.lastFailure : ℤ) then
    (false, { h with circuitOpen := false, failures := FAILURE_THRESHOLD - 1 })
  else
    (true, h)

/-- The module-level `serverHealth` map, as a total function with the lazily
created default baked in (`getServerHealth` creates exactly `defaultHealth`). -/
def HealthStore : Type := String → HealthRecord

/-- The store at worker start-up: every name reads as the default record. -/
def initialStore : HealthStore := fun _ => defaultHealth

/-- Point update of the health map. -/
def hsUpdate (store : HealthStore) (name : String) (h : HealthRecord) : HealthStore :=
  fun n => if n = name then h else store n

/-- `recordSuccess(serverName, responseTime)` at store level. -/
def hsRecordSuccess (name : String) (responseTime : ℚ) (store : HealthStore) : HealthStore :=
  hsUpdate store name (recordSuccessRec responseTime (store name))

/-- `recordFailure(serverName)` at store level. -/
def hsRecordFailure (name : String) (now : Nat) (store : HealthStore) : HealthStore :=
  hsUpdate store name (recordFailureRec now (store name))

/-- `isCircuitOpen(serverName)` at store level: reported flag plus the store
after the possible half-open mutation. -/
def hsIsCircuitOpen (name : String) (now : Nat) (store : HealthStore) : Bool × HealthStore :=
  let r := isCircuitOpenRec now (store name)
  (r.fst, hsUpdate store name r.snd)

/-- A run of consecutive `recordFailure` calls (one timestamp per call),
with no intervening `recordSuccess`. -/
def applyFailures (times : List Nat) (h : HealthRecord) : HealthRecord :=
  times.foldl (fun a t => recordFailureRec t a) h

theorem applyFailures_cons (t : Nat) (ts : List Nat) (h : HealthRecord) :
    applyFailures (t :: ts) h = applyFailures ts (recordFailureRec t h) := rfl

theorem failures_recordFailureRec (t : Nat) (h : HealthRecord) :
    (recordFailureRec t h).failures = h.failures + 1 := rfl

theorem failures_applyFailures (times : List Nat) (h : HealthRecord) :
    (applyFailures times h).failures = h.failures + times.length := by
  induction times generalizing h with
  | nil => simp [applyFailures]
  | cons t ts ih =>
      rw [applyFailures_cons, ih, failures_recordFailureRec]
      simp; omega

theorem circuitOpen_applyFailures (times : List Nat) (h : HealthRecord)
    (hne : times ≠ []) (hth : FAILURE_THRESHOLD ≤ h.failures + times.length) :
    (applyFailures times h).circuitOpen = true := by
  induction times generalizing h with
  | nil => exact absurd rfl hne
  | cons t ts ih =>
      rw [applyFailures_cons]
      cases ts with
      | nil =>
          simp only [applyFailures, List.foldl]
          simp only [List.length_cons, List.length_nil] at hth
          simp [recordFailureRec]
          omega
      | cons t2 ts2 =>
          refine ih _ (by simp) ?_
          rw [failures_recordFailureRec]
          simp only [List.length_cons] at hth ⊢
          omega

/-- C1: starting from a record with `failures = 0`, `FAILURE_THRESHOLD`
consecutive `recordFailure` calls leave the circuit open, and one subsequent
`recordSuccess` resets `failures` to 0 and closes the circuit. -/
theorem circuit_opens_after_threshold_failures
    (h : HealthRecord) (times : List Nat) (responseTime : ℚ)
    (h0 : h.failures = 0) (hlen : times.length = FAILURE_THRESHOLD) :
    (applyFailures times h).circuitOpen = true ∧
    (recordSuccessRec responseTime (applyFailures times h)).failures = 0 ∧
    (recordSuccessRec responseTime (applyFailures times h)).circuitOpen = false := by
  refine ⟨?_, rfl, rfl⟩
  apply circuitOpen_applyFailures
  · intro hnil
    rw [hnil] at hlen
    simp [FAILURE_THRESHOLD] at hlen
  · omega

/-- Witness for C1 at a concrete record and failure-time list. -/
theorem circuit_opens_after_threshold_failures_witness :
    defaultHealth.failures = 0 ∧
    ([100, 200, 300] : List Nat).length = FAILURE_THRESHOLD ∧
    ((applyFailures [100, 200, 300] defaultHealth).circuitOpen = true ∧
     (recordSuccessRec 5 (applyFailures [100, 200, 300] defaultHealth)).failures = 0 ∧
     (recordSuccessRec 5 (applyFailures [100, 200, 300] defaultHealth)).circuitOpen = false) :=
  ⟨rfl, rfl, circuit_opens_after_threshold_failures defaultHealth [100, 200, 300] 5 rfl rfl⟩

/-- The HealthStore operations of `load-balancer.js`, keyed by server name
(`recordSuccess`, `recordFailure`, and the half-open mutation performed by
`isCircuitOpen`; record creation is the baked-in default of the store). -/
inductive HealthOp where
  | success (name : String) (responseTime : ℚ)
  | failure (name : String) (now : Nat)
  | circuitCheck (name : String) (now : Nat)

def applyHealthOp (store : HealthStore) : HealthOp → HealthStore
  | .success name rt => hsRecordSuccess name rt store
  | .failure name now => hsRecordFailure name now store
  | .circuitCheck name now => (hsIsCircuitOpen name now store).snd

/-- The store after any sequence of HealthStore operations from start-up. -/
def runHealthOps (ops : List HealthOp) : HealthStore :=
  ops.foldl applyHealthOp initialStore

/-- The spec's record invariant: an open circuit implies at least
`FAILURE_THRESHOLD` consecutive failures. -/
def healthInvariant (h : HealthRecord) : Prop :=
  h.circuitOpen = true → FAILURE_THRESHOLD ≤ h.failures

theorem healthInvariant_recordSuccessRec (rt : ℚ) (h : HealthRecord) :
    healthInvariant (recordSuccessRec rt h) := by
  intro hopen
  simp [recordSuccessRec] at hopen

theorem healthInvariant_recordFailureRec (now : Nat) (h : HealthRecord)
    (hinv : healthInvariant h) : healthInvariant (recordFailureRec now h) := by
  intro hopen
  simp only [recordFailureRec, failures_recordFailureRec]
  by_cases hth : FAILURE_THRESHOLD ≤ h.failures + 1
  · exact hth
  · simp only [recordFailureRec] at hopen
    split at hopen
    · omega
    · exact Nat.le_succ_of_le (hinv hopen)

theorem healthInvariant_isCircuitOpenRec (now : Nat) (h : HealthRecord)
    (hinv : healthInvariant h) : healthInvariant (isCircuitOpenRec now h).snd := by
  unfold isCircuitOpenRec
  split
  · exact hinv
  · split
    · intro hopen; simp at hopen
    · exact hinv

theorem healthInvariant_applyHealthOp (store : HealthStore) (op : HealthOp)
    (hinv : ∀ n, healthInvariant (store n)) :
    ∀ n, healthInvariant ((applyHealthOp store op) n) := by
  intro n
  cases op with
  | success name rt =>
      simp only [applyHealthOp, hsRecordSuccess, hsUpdate]
      split
      · exact healthInvariant_recordSuccessRec _ _
      · exact hinv n
  | failure name now =>
      simp only [applyHealthOp, hsRecordFailure, hsUpdate]
      split
      · exact healthInvariant_recordFailureRec _ _ (hinv name)
      · exact hinv n
  | circuitCheck name now =>
      simp only [applyHealthOp, hsIsCircuitOpen, hsUpdate]
      split
      · exact healthInvariant_isCircuitOpenRec _ _ (hinv name)
      · exact hinv n

theorem healthInvariant_foldl (ops : List HealthOp) (store : HealthStore)
    (hinv : ∀ n, healthInvariant (store n)) :
    ∀ n, healthInvariant ((ops.foldl applyHealthOp store) n) := by
  induction ops generalizing store with
  | nil => exact hinv
  | cons op ops ih =>
      exact ih _ (healthInvariant_applyHealthOp store op hinv)

/-- C4: after every sequence of HealthStore operations from start-up
(lazy record creation, `recordSuccess`, `recordFailure`, the half-open
circuit check), every record satisfies: open circuit implies
`failures ≥ FAILURE_THRESHOLD`. -/
theorem circuit_invariant_all_ops (ops : List HealthOp) (name : String) :
    (runHealthOps ops name).circuitOpen = true →
    FAILURE_THRESHOLD ≤ (runHealthOps ops name).failures := by
  have h : ∀ n, healthInvariant (initialStore n) := by
    intro n hopen
    simp [initialStore, defaultHealth] at hopen
  exact healthInvariant_foldl ops initialStore h name

/-- Witness for C4: a concrete operation sequence that opens a circuit,
whose record then indeed shows at least `FAILURE_THRESHOLD` failures. -/
theorem circuit_invariant_all_ops_witness :
    FAILURE_THRESHOLD ≤
      (runHealthOps [.failure "a" 5, .failure "a" 6, .failure "a" 7] "a").failures :=
  circuit_invariant_all_ops [.failure "a" 5, .failure "a" 6, .failure "a" 7] "a" (by decide)

/-- One entry of `CONFIG.SERVERS` in `load-balancer.js`. -/
structure Server where
  name : String
  url : String
  weight : ℚ
deriving DecidableEq, Repr

/-- `CONFIG.SERVERS` of `load-balancer.js`. -/
def CONFIG_SERVERS : List Server :=
  [{ name := "primary", url := "yourapp-primary.equidity.app", weight := 80 },
   { name := "backup", url := "yourapp-failover.equidity.app", weight := 20 }]

/-- `selectServerFailover` of `load-balancer.js`:
`CONFIG.SERVERS.filter(s => !isCircuitOpen(s.name))`, with the store threaded
through the predicate calls in order (the predicate mutates on half-open). -/
def selectServerFailover (now : Nat) : HealthStore → List Server → List Server × HealthStore
  | store, [] => ([], store)
  | store, s :: rest =>
    let c := hsIsCircuitOpen s.name now store
    let r := selectServerFailover now c.snd rest
    (if c.fst then r.fst else s :: r.fst, r.snd)

/-- The open flag `isCircuitOpen(s.name)` would report against a given store. -/
def failoverOpenAt (now : Nat) (store : HealthStore) (s : Server) : Bool :=
  (isCircuitOpenRec now (store s.name)).fst

/-- A store reachable from `store` by circuit checks: each record is either
untouched or has had this round's half-open mutation applied. -/
def checkStable (now : Nat) (store store' : HealthStore) : Prop :=
  ∀ name, store' name = store name ∨ store' name = (isCircuitOpenRec now (store name)).snd

theorem checkStable_refl (now : Nat) (store : HealthStore) : checkStable now store store :=
  fun _ => Or.inl rfl

theorem isCircuitOpenRec_snd_fst (now : Nat) (h : HealthRecord) :
    (isCircuitOpenRec now (isCircuitOpenRec now h).snd).fst = (isCircuitOpenRec now h).fst := by
  unfold isCircuitOpenRec
  split
  · simp_all
  · split
    · simp
    · simp_all

theorem isCircuitOpenRec_snd_snd (now : Nat) (h : HealthRecord) :
    (isCircuitOpenRec now (isCircuitOpenRec now h).snd).snd = (isCircuitOpenRec now h).snd := by
  unfold isCircuitOpenRec
  split
  · simp_all
  · split
    · simp
    · simp_all

theorem checkStable_fst (now : Nat) (store store' : HealthStore)
    (hst : checkStable now store store') (name : String) :
    (isCircuitOpenRec now (store' name)).fst = (isCircuitOpenRec now (store name)).fst := by
  rcases hst name with h | h
  · rw [h]
  · rw [h, isCircuitOpenRec_snd_fst]

theorem checkStable_apply (now : Nat) (store store' : HealthStore)
    (hst : checkStable now store store') (m : String) :
    checkStable now store (hsIsCircuitOpen m now store').snd := by
  intro n
  simp only [hsIsCircuitOpen, hsUpdate]
  split
  · rename_i hn
    subst hn
    rcases hst n with h | h
    · rw [h]; exact Or.inr rfl
    · rw [h, isCircuitOpenRec_snd_snd]; exact Or.inr rfl
  · exact hst n

theorem selectServerFailover_fst (now : Nat) (store : HealthStore)
    (servers : List Server) :
    ∀ store', checkStable now store store' →
      (selectServerFailover now store' servers).fst
        = servers.filter (fun s => !(failoverOpenAt now store s)) := by
  induction servers with
  | nil => intro store' _; rfl
  | cons s rest ih =>
      intro store' hst
      have hfst : (hsIsCircuitOpen s.name now store').fst = failoverOpenAt now store s :=
        checkStable_fst now store store' hst s.name
      have hrest := ih (hsIsCircuitOpen s.name now store').snd
        (checkStable_apply now store store' hst s.name)
      simp only [selectServerFailover, hrest, hfst, List.filter]
      by_cases hopen : failoverOpenAt now store s
      · simp [hopen]
      · simp [hopen]

/-- C2(amended): the failover selector returns exactly the eligible
(non-open-circuit) servers, in their configured order; if no server is
eligible it returns the empty list (the source has no full-set fallback in
`selectServerFailover`, unlike the weighted and smart selectors). -/
theorem failover_select_eligible_in_order (servers : List Server) (now : Nat)
    (store : HealthStore) :
    (selectServerFailover now store servers).fst
      = servers.filter (fun s => !(failoverOpenAt now store s)) ∧
    ((∀ s ∈ servers, failoverOpenAt now store s = true) →
      (selectServerFailover now store servers).fst = []) := by
  have h := selectServerFailover_fst now store servers store (checkStable_refl now store)
  refine ⟨h, fun hall => ?_⟩
  rw [h]
  have hnil : ∀ (l : List Server), (∀ s ∈ l, failoverOpenAt now store s = true) →
      l.filter (fun s => !(failoverOpenAt now store s)) = [] := by
    intro l
    induction l with
    | nil => intro _; rfl
    | cons s rest ih =>
        intro hl
        have hs := hl s (by simp)
        simp only [List.filter, hs]
        exact ih (fun x hx => hl x (by simp [hx]))
  exact hnil servers hall

/-- A record whose circuit is open with a recent last failure. -/
def cexOpenRecord : HealthRecord :=
  { failures := 3, lastFailure := 1000000, avgResponseTime := 0,
    requestCount := 0, circuitOpen := true }

/-- A store in which every server's circuit is open and unexpired. -/
def cexAllOpenStore : HealthStore := fun _ => cexOpenRecord

/-- C2 counterexample: with every configured server's circuit open (and well
inside `CIRCUIT_RESET_TIME`), `selectServerFailover` returns the empty list,
not the full original server set the claim requires. -/
theorem failover_no_last_resort_cex :
    (∀ s ∈ CONFIG_SERVERS, failoverOpenAt 1000001 cexAllOpenStore s = true) ∧
    (selectServerFailover 1000001 cexAllOpenStore CONFIG_SERVERS).fst = [] ∧
    CONFIG_SERVERS ≠ [] := by
  refine ⟨by decide, by decide, by decide⟩

/-- Witness for C2(amended) at a concrete all-open store. -/
theorem failover_select_eligible_in_order_witness :
    (selectServerFailover 1000001 cexAllOpenStore CONFIG_SERVERS).fst = [] :=
  (failover_select_eligible_in_order CONFIG_SERVERS 1000001 cexAllOpenStore).2 (by decide)

/-- `calculateSmartWeight` of `load-balancer.js`: latency penalty, then
failure penalty, then collapse to `MIN_WEIGHT` on an open circuit, then
clamp into `[MIN_WEIGHT, MAX_WEIGHT]`. -/
def calculateSmartWeight (s : Server) (h : HealthRecord) : ℚ :=
  let w0 := s.weight
  let w1 := if SLOW_THRESHOLD < h.avgResponseTime
              then w0 / (h.avgResponseTime / SLOW_THRESHOLD) else w0
  let w2 := if 0 < h.failures then w1 / ((h.failures : ℚ) + 1) else w1
  let w3 := if h.circuitOpen then MIN_WEIGHT else w2
  max MIN_WEIGHT (min MAX_WEIGHT w3)

/-- One element of the `serversWithHealth` array built in `selectServerSmart`
(the server spread together with `dynamicWeight` and the `circuitOpen`
snapshot taken by `isCircuitOpen`). -/
structure SHealth where
  name : String
  url : String
  weight : ℚ
  dynamicWeight : ℚ
  circuitOpen : Bool
deriving DecidableEq, Repr

/-- The `CONFIG.SERVERS.map(...)` step of `selectServerSmart`: the object
literal evaluates `calculateSmartWeight` on the record as stored, then runs
`isCircuitOpen`, whose half-open mutation is threaded into later entries. -/
def serversWithHealth (now : Nat) : HealthStore → List Server → List SHealth × HealthStore
  | store, [] => ([], store)
  | store, s :: rest =>
    let dw := calculateSmartWeight s (store s.name)
    let c := hsIsCircuitOpen s.name now store
    let r := serversWithHealth now c.snd rest
    ({ name := s.name, url := s.url, weight := s.weight,
       dynamicWeight := dw, circuitOpen := c.fst } :: r.fst, r.snd)

/-- The primary eligible set: `serversWithHealth.filter(s => !s.circuitOpen)`. -/
def smartEligible (l : List SHealth) : List SHealth :=
  l.filter (fun s => !s.circuitOpen)

/-- The last-resort fallback of `selectServerSmart`: if every circuit is open
the full annotated list is used. -/
def smartAvailable (swh : List SHealth) : List SHealth :=
  if (smartEligible swh).isEmpty then swh else smartEligible swh

/-- `reduce((sum, s) => sum + s.dynamicWeight, 0)`. -/
def totalDynamicWeight (l : List SHealth) : ℚ :=
  l.foldl (fun sum s => sum + s.dynamicWeight) 0

/-- The cumulative-weight scan of `selectServerSmart`: first index whose
cumulative range reaches the draw (`none` if the loop never breaks). -/
def pickIndexGo (random : ℚ) : ℚ → Nat → List SHealth → Option Nat
  | _, _, [] => none
  | cum, i, s :: rest =>
    let c := cum + s.dynamicWeight
    if random ≤ c then some i else pickIndexGo random c (i + 1) rest

/-- `selectedIndex`: the scan result, or the initial value 0 when the loop
finishes without a break. -/
def pickIndex (random : ℚ) (l : List SHealth) : Nat :=
  (pickIndexGo random 0 0 l).getD 0

/-- `selectServerSmart` of `load-balancer.js`.  `rand` is the `Math.random()`
draw in `[0,1)`.  The selected entry is spliced to the front, the remaining
available entries keep their order.  (The `none` branch is unreachable for a
nonempty server list; the source would splice `undefined` there.) -/
def selectServerSmart (rand : ℚ) (now : Nat) (store : HealthStore)
    (servers : List Server) : List SHealth × HealthStore :=
  let r := serversWithHealth now store servers
  let avail := smartAvailable r.fst
  let idx := pickIndex (rand * totalDynamicWeight avail) avail
  match avail[idx]? with
  | some sel => (sel :: avail.eraseIdx idx, r.snd)
  | none => (avail, r.snd)

theorem serversWithHealth_map_name (now : Nat) (servers : List Server) :
    ∀ store, ((serversWithHealth now store servers).fst.map SHealth.name)
      = servers.map Server.name := by
  induction servers with
  | nil => intro store; rfl
  | cons s rest ih => intro store; simp [serversWithHealth, ih]

theorem serversWithHealth_circuitOpen (now : Nat) (store : HealthStore)
    (servers : List Server) :
    ∀ store', checkStable now store store' →
      ∀ e ∈ (serversWithHealth now store' servers).fst,
        e.circuitOpen = (isCircuitOpenRec now (store e.name)).fst := by
  induction servers with
  | nil =>
      intro store' _ e he
      simp [serversWithHealth] at he
  | cons s rest ih =>
      intro store' hst e he
      simp only [serversWithHealth, List.mem_cons] at he
      rcases he with he | he
      · subst he
        exact checkStable_fst now store store' hst s.name
      · exact ih _ (checkStable_apply now store store' hst s.name) e he

theorem pickIndexGo_lt_length (random : ℚ) :
    ∀ (l : List SHealth) (cum : ℚ) (i j : Nat),
      pickIndexGo random cum i l = some j → j < i + l.length := by
  intro l
  induction l with
  | nil => intro cum i j h; simp [pickIndexGo] at h
  | cons s rest ih =>
      intro cum i j h
      simp only [pickIndexGo] at h
      split at h
      · cases h
        simp only [List.length_cons]
        omega
      · have := ih _ _ _ h
        simp only [List.length_cons]
        omega

theorem pickIndex_lt_length (random : ℚ) (l : List SHealth) (hne : l ≠ []) :
    pickIndex random l < l.length := by
  unfold pickIndex
  cases hgo : pickIndexGo random 0 0 l with
  | none => simpa [Option.getD] using List.length_pos.mpr hne
  | some j =>
      have := pickIndexGo_lt_length random l 0 0 j hgo
      simpa [Option.getD] using this

/-- C3: for a server whose stored record has the circuit open: before
`CIRCUIT_RESET_TIME` has elapsed the check reports it open, mutates nothing,
and the server is excluded from the primary eligible set of the smart
selection; once `CIRCUIT_RESET_TIME` has elapsed the check clears the flag,
sets `failures := FAILURE_THRESHOLD - 1`, reports it available, and the
smart selection round lists the server exactly once (one probing attempt). -/
theorem half_open_single_probe (servers : List Server) (rand : ℚ) (now : Nat)
    (store : HealthStore) (name : String)
    (hopen : (store name).circuitOpen = true) :
    (((now : ℤ) - ((store name).lastFailure : ℤ) < (CIRCUIT_RESET_TIME : ℤ)) →
       (hsIsCircuitOpen name now store).fst = true ∧
       (hsIsCircuitOpen name now store).snd = store ∧
       (∀ e ∈ smartEligible (serversWithHealth now store servers).fst,
          e.name ≠ name)) ∧
    (((CIRCUIT_RESET_TIME : ℤ) ≤ (now : ℤ) - ((store name).lastFailure : ℤ)) →
       (hsIsCircuitOpen name now store).fst = false ∧
       (hsIsCircuitOpen name now store).snd name
         = { store name with circuitOpen := false,
                             failures := FAILURE_THRESHOLD - 1 } ∧
       ((servers.map Server.name).Nodup → name ∈ servers.map Server.name →
        ((selectServerSmart rand now store servers).fst.map SHealth.name).count name
          = 1)) := by
  constructor
  · intro hlt
    have hfst : (isCircuitOpenRec now (store name)).fst = true := by
      simp [isCircuitOpenRec, hopen, not_le.mpr hlt]
    have hsnd : (isCircuitOpenRec now (store name)).snd = store name := by
      simp [isCircuitOpenRec, hopen, not_le.mpr hlt]
    refine ⟨hfst, ?_, ?_⟩
    · funext n
      simp only [hsIsCircuitOpen, hsUpdate, hsnd]
      split
      · rename_i hn; subst hn; rfl
      · rfl
    · intro e he hename
      have hmem := List.mem_filter.mp he
      have hco := serversWithHealth_circuitOpen now store servers store
        (checkStable_refl now store) e hmem.1
      rw [hename, hfst] at hco
      simp [hco] at hmem
  · intro hge
    have hfst : (isCircuitOpenRec now (store name)).fst = false := by
      simp [isCircuitOpenRec, hopen, hge]
    have hsnd : (isCircuitOpenRec now (store name)).snd
        = { store name with circuitOpen := false,
                            failures := FAILURE_THRESHOLD - 1 } := by
      simp [isCircuitOpenRec, hopen, hge]
    refine ⟨hfst, by simp [hsIsCircuitOpen, hsUpdate, hsnd], ?_⟩
    intro hnd hmem
    obtain ⟨e, he, hename⟩ : ∃ e ∈ (serversWithHealth now store servers).fst,
        e.name = name := by
      rw [← serversWithHealth_map_name now servers store] at hmem
      simpa using hmem
    have heopen : e.circuitOpen = false := by
      rw [serversWithHealth_circuitOpen now store servers store
        (checkStable_refl now store) e he, hename, hfst]
    have hemem : e ∈ smartEligible (serversWithHealth now store servers).fst :=
      List.mem_filter.mpr ⟨he, by simp [heopen]⟩
    have heligne : smartEligible (serversWithHealth now store servers).fst ≠ [] := by
      intro h0; rw [h0] at hemem; simp at hemem
    have havail : smartAvailable (serversWithHealth now store servers).fst
        = smartEligible (serversWithHealth now store servers).fst := by
      unfold smartAvailable
      rw [if_neg]
      simp [List.isEmpty_iff, heligne]
    have hsubname : List.Sublist
        ((smartEligible (serversWithHealth now store servers).fst).map SHealth.name)
        (((serversWithHealth now store servers).fst).map SHealth.name) :=
      (List.filter_sublist _).map SHealth.name
    have hnd2 : ((smartEligible (serversWithHealth now store servers).fst).map SHealth.name).Nodup := by
      apply List.Nodup.sublist hsubname
      rw [serversWithHealth_map_name]
      exact hnd
    have hmm : name ∈ (smartEligible (serversWithHealth now store servers).fst).map SHealth.name :=
      List.mem_map.mpr ⟨e, hemem, hename⟩
    have hcount : ((smartEligible (serversWithHealth now store servers).fst).map SHealth.name).count name = 1 :=
      List.count_eq_one_of_mem hnd2 hmm
    have hanene : smartAvailable (serversWithHealth now store servers).fst ≠ [] := by
      rw [havail]; exact heligne
    have hlt := pickIndex_lt_length
      (rand * totalDynamicWeight (smartAvailable (serversWithHealth now store servers).fst))
      (smartAvailable (serversWithHealth now store servers).fst) hanene
    have hsel := List.getElem?_eq_getElem hlt
    have hperm :
        ((smartAvailable (serversWithHealth now store servers).fst)[pickIndex
            (rand * totalDynamicWeight (smartAvailable (serversWithHealth now store servers).fst))
            (smartAvailable (serversWithHealth now store servers).fst)]
          :: (smartAvailable (serversWithHealth now store servers).fst).eraseIdx
              (pickIndex (rand * totalDynamicWeight (smartAvailable (serversWithHealth now store servers).fst))
                (smartAvailable (serversWithHealth now store servers).fst))).Perm
          (smartAvailable (serversWithHealth now store servers).fst) := by
    -- l ~ l[i] :: l.erase l[i] ~ l[i] :: l.eraseIdx i
      have h1 := List.perm_cons_erase (List.getElem_mem hlt)
      have h2 := (List.erase_getElem hlt).cons
        (smartAvailable (serversWithHealth now store servers).fst)[pickIndex
          (rand * totalDynamicWeight (smartAvailable (serversWithHealth now store servers).fst))
          (smartAvailable (serversWithHealth now store servers).fst)]
      exact (h1.trans h2).symm
    have hfsteq : (selectServerSmart rand now store servers).fst
        = (smartAvailable (serversWithHealth now store servers).fst)[pickIndex
            (rand * totalDynamicWeight (smartAvailable (serversWithHealth now store servers).fst))
            (smartAvailable (serversWithHealth now store servers).fst)]
          :: (smartAvailable (serversWithHealth now store servers).fst).eraseIdx
              (pickIndex (rand * totalDynamicWeight (smartAvailable (serversWithHealth now store servers).fst))
                (smartAvailable (serversWithHealth now store servers).fst)) := by
      simp only [selectServerSmart, hsel]
    rw [hfsteq, (hperm.map SHealth.name).count_eq, havail]
    exact hcount

/-- A record in half-open position: circuit open, reset time fully elapsed. -/
def halfOpenRecord : HealthRecord :=
  { failures := 3, lastFailure := 0, avgResponseTime := 0,
    requestCount := 0, circuitOpen := true }

/-- Store with the primary half-open and the backup fresh. -/
def cexHalfOpenStore : HealthStore :=
  fun n => if n = "primary" then halfOpenRecord else defaultHealth

/-- Witness for C3 at a concrete half-open store and the configured servers. -/
theorem half_open_single_probe_witness :
    ((cexHalfOpenStore "primary").circuitOpen = true) ∧
    ((CIRCUIT_RESET_TIME : ℤ) ≤ (30000 : ℤ) - ((cexHalfOpenStore "primary").lastFailure : ℤ)) ∧
    ((selectServerSmart (1/2) 30000 cexHalfOpenStore CONFIG_SERVERS).fst.map
      SHealth.name).count "primary" = 1 :=
  ⟨by decide, by decide,
    ((half_open_single_probe CONFIG_SERVERS (1/2) 30000 cexHalfOpenStore "primary"
        (by decide)).2 (by decide)).2.2 (by decide) (by decide)⟩

/-- An upstream HTTP response as the dispatch logic observes it: status code
plus the rest of the response carried opaquely (`redirect: manual` means
redirect statuses arrive here like any other status). -/
structure Resp where
  status : Nat
  contentType : String
  body : String
deriving DecidableEq, Repr

/-- What one outbound fetch attempt would yield if issued: a received
response, or a transport failure / timeout (the rejected promise of
`fetchWithTimeout`). -/
inductive AttemptOutcome where
  | ok (r : Resp)
  | err
deriving DecidableEq, Repr

/-- An attempt outcome the dispatch code treats as a failure: transport
error, or a response with status `>= 500`. -/
def isFailingOutcome : AttemptOutcome → Bool
  | .ok r => decide (500 ≤ r.status)
  | .err => true

/-- The retry loop body of `tryServer` in `part_000` / `part_001`: walk the
attempt outcomes, returning the first response with status `< 500`; the
trace lists one entry per network attempt actually issued. -/
def tryServerWorkerGo (server : String) : List AttemptOutcome → Option Resp × List String
  | [] => (none, [])
  | .ok r :: rest =>
    if r.status < 500 then (some r, [server])
    else
      let t := tryServerWorkerGo server rest
      (t.fst, server :: t.snd)
  | .err :: rest =>
    let t := tryServerWorkerGo server rest
    (t.fst, server :: t.snd)

/-- `tryServer` of `part_000` / `part_001`: `for (let i = 0; i <= RETRIES; i++)`
makes at most `RETRIES + 1` attempts, then gives up with `null`. -/
def tryServerWorker (server : String) (outcomes : List AttemptOutcome) :
    Option Resp × List String :=
  tryServerWorkerGo server (outcomes.take (RETRIES + 1))

/-- The retry loop body of `tryServer` in `load-balancer.js`: same loop as the
simple worker, with `recordSuccess` on the returned response (using the
measured `responseTime`) and `recordFailure` once after the loop exhausts. -/
def tryServerLBGo (name : String) (now : Nat) (responseTime : ℚ)
    (store : HealthStore) :
    List AttemptOutcome → Option Resp × HealthStore × List String
  | [] => (none, hsRecordFailure name now store, [])
  | .ok r :: rest =>
    if r.status < 500 then (some r, hsRecordSuccess name responseTime store, [name])
    else
      let t := tryServerLBGo name now responseTime store rest
      (t.fst, t.snd.fst, name :: t.snd.snd)
  | .err :: rest =>
    let t := tryServerLBGo name now responseTime store rest
    (t.fst, t.snd.fst, name :: t.snd.snd)

/-- `tryServer` of `load-balancer.js` (health-adaptive variant). -/
def tryServerLB (name : String) (now : Nat) (responseTime : ℚ)
    (outcomes : List AttemptOutcome) (store : HealthStore) :
    Option Resp × HealthStore × List String :=
  tryServerLBGo name now responseTime store (outcomes.take (RETRIES + 1))

/-- One entry of the multi-app `healthCache`. -/
structure CacheEntry where
  isDown : Bool
  expiry : Nat
deriving DecidableEq, Repr

/-- The module-level `healthCache` map of `multi-app-config.js`. -/
def HealthCache : Type := String → Option CacheEntry

/-- The cache at worker start-up. -/
def emptyCache : HealthCache := fun _ => none

/-- Point update / deletion of the down-cache. -/
def cacheUpdate (cache : HealthCache) (server : String) (e : Option CacheEntry) :
    HealthCache :=
  fun n => if n = server then e else cache n

/-- `HEALTH_CACHE_TTL` (seconds) in `multi-app-config.js`. -/
def HEALTH_CACHE_TTL : Nat := 30

/-- `markServerDown`: remember the server as down until `now + TTL`. -/
def markServerDown (server : String) (now : Nat) (cache : HealthCache) : HealthCache :=
  cacheUpdate cache server (some { isDown := true, expiry := now + HEALTH_CACHE_TTL * 1000 })

/-- `markServerUp`: drop the cache entry. -/
def markServerUp (server : String) (cache : HealthCache) : HealthCache :=
  cacheUpdate cache server none

/-- `isServerMarkedDown`: expired entries are deleted lazily at read time. -/
def isServerMarkedDown (server : String) (now : Nat) (cache : HealthCache) :
    Bool × HealthCache :=
  match cache server with
  | none => (false, cache)
  | some c =>
    if c.expiry < now then (false, cacheUpdate cache server none)
    else (c.isDown, cache)

/-- The attempt body of `tryServer` in `multi-app-config.js` (the code after
the down-cache guard): a received response marks the server up first, then a
5xx (or a transport failure) marks it down.  The trace lists the single
network attempt issued. -/
def tryServerMultiCore (server : String) (now : Nat) (outcome : AttemptOutcome)
    (cache : HealthCache) : Option Resp × HealthCache × List String :=
  match outcome with
  | .err => (none, markServerDown server now cache, [server])
  | .ok r =>
    let c2 := markServerUp server cache
    if r.status < 500 then (some r, c2, [server])
    else (none, markServerDown server now c2, [server])

/-- `tryServer` of `multi-app-config.js`: a single attempt, skipped entirely
(no network call, empty trace) when the server is marked down and the check
is not bypassed. -/
def tryServerMulti (server : String) (now : Nat) (outcome : AttemptOutcome)
    (cache : HealthCache) (skipHealthCheck : Bool) :
    Option Resp × HealthCache × List String :=
  if skipHealthCheck then tryServerMultiCore server now outcome cache
  else
    let d := isServerMarkedDown server now cache
    if d.fst then (none, d.snd, [])
    else tryServerMultiCore server now outcome d.snd

theorem tryServerWorkerGo_some (server : String) :
    ∀ (l : List AttemptOutcome) (r : Resp),
      (tryServerWorkerGo server l).fst = some r →
      r.status < 500 ∧ AttemptOutcome.ok r ∈ l := by
  intro l
  induction l with
  | nil => intro r h; simp [tryServerWorkerGo] at h
  | cons o rest ih =>
      intro r h
      cases o with
      | ok r' =>
          simp only [tryServerWorkerGo] at h
          split at h
          · cases h
            exact ⟨by assumption, by simp⟩
          · have := ih r h
            exact ⟨this.1, by simp [this.2]⟩
      | err =>
          simp only [tryServerWorkerGo] at h
          have := ih r h
          exact ⟨this.1, by simp [this.2]⟩

theorem tryServerWorkerGo_none (server : String) :
    ∀ (l : List AttemptOutcome),
      (tryServerWorkerGo server l).fst = none ↔
      ∀ o ∈ l, isFailingOutcome o = true := by
  intro l
  induction l with
  | nil => simp [tryServerWorkerGo]
  | cons o rest ih =>
      cases o with
      | ok r' =>
          simp only [tryServerWorkerGo]
          split
          · rename_i hlt
            constructor
            · intro h
              exact absurd h (by simp)
            · intro h
              have hh := h (.ok r') (by simp)
              simp only [isFailingOutcome, decide_eq_true_eq] at hh
              omega
          · rename_i hge
            simp only [List.mem_cons, ih]
            constructor
            · intro h o ho
              rcases ho with ho | ho
              · subst ho; simp [isFailingOutcome]; omega
              · exact h o ho
            · intro h o ho
              exact h o (Or.inr ho)
      | err =>
          simp only [tryServerWorkerGo]
          simp only [List.mem_cons, ih]
          constructor
          · intro h o ho
            rcases ho with ho | ho
            · subst ho; rfl
            · exact h o ho
          · intro h o ho
            exact h o (Or.inr ho)

/-- The load-balancer loop returns exactly what the simple worker loop
returns; only the health bookkeeping differs. -/
theorem tryServerLBGo_fst (name : String) (now : Nat) (rt : ℚ) (store : HealthStore) :
    ∀ (l : List AttemptOutcome),
      (tryServerLBGo name now rt store l).fst = (tryServerWorkerGo name l).fst := by
  intro l
  induction l with
  | nil => rfl
  | cons o rest ih =>
      cases o with
      | ok r' =>
          simp only [tryServerLBGo, tryServerWorkerGo]
          split <;> simp [ih]
      | err =>
          simp only [tryServerLBGo, tryServerWorkerGo]
          simp [ih]

theorem tryServerLBGo_health (name : String) (now : Nat) (rt : ℚ) (store : HealthStore) :
    ∀ (l : List AttemptOutcome),
      ((tryServerLBGo name now rt store l).fst = none ∧
       (tryServerLBGo name now rt store l).snd.fst = hsRecordFailure name now store) ∨
      (∃ r, (tryServerLBGo name now rt store l).fst = some r ∧
       (tryServerLBGo name now rt store l).snd.fst = hsRecordSuccess name rt store) := by
  intro l
  induction l with
  | nil => exact Or.inl ⟨rfl, rfl⟩
  | cons o rest ih =>
      cases o with
      | ok r' =>
          simp only [tryServerLBGo]
          split
          · exact Or.inr ⟨r', rfl, rfl⟩
          · exact ih
      | err =>
          simp only [tryServerLBGo]
          exact ih

theorem tryServerMultiCore_some (server : String) (now : Nat) (o : AttemptOutcome)
    (cache : HealthCache) (r : Resp)
    (h : (tryServerMultiCore server now o cache).fst = some r) :
    r.status < 500 ∧ o = AttemptOutcome.ok r := by
  cases o with
  | err => simp [tryServerMultiCore] at h
  | ok r' =>
      simp only [tryServerMultiCore] at h
      split at h
      · cases h
        exact ⟨by assumption, rfl⟩
      · simp at h

theorem tryServerMultiCore_none (server : String) (now : Nat) (o : AttemptOutcome)
    (cache : HealthCache)
    (h : (tryServerMultiCore server now o cache).fst = none) :
    isFailingOutcome o = true := by
  cases o with
  | err => rfl
  | ok r' =>
      simp only [tryServerMultiCore] at h
      split at h
      · simp at h
      · rename_i hge
        simp only [isFailingOutcome, decide_eq_true_eq]
        omega

theorem tryServerMultiCore_trace (server : String) (now : Nat) (o : AttemptOutcome)
    (cache : HealthCache) :
    (tryServerMultiCore server now o cache).snd.snd = [server] := by
  cases o with
  | err => rfl
  | ok r' =>
      simp only [tryServerMultiCore]
      split <;> rfl

theorem tryServerMulti_some (server : String) (now : Nat) (o : AttemptOutcome)
    (cache : HealthCache) (skip : Bool) (r : Resp)
    (h : (tryServerMulti server now o cache skip).fst = some r) :
    r.status < 500 ∧ o = AttemptOutcome.ok r := by
  simp only [tryServerMulti] at h
  split at h
  · exact tryServerMultiCore_some server now o cache r h
  · split at h
    · simp at h
    · exact tryServerMultiCore_some server now o _ r h

theorem tryServerMulti_none_trace (server : String) (now : Nat) (o : AttemptOutcome)
    (cache : HealthCache) (skip : Bool)
    (h : (tryServerMulti server now o cache skip).fst = none) :
    (tryServerMulti server now o cache skip).snd.snd = [] ∨
    isFailingOutcome o = true := by
  by_cases hskip : skip = true
  · rw [hskip] at h ⊢
    simp only [tryServerMulti, if_true] at h ⊢
    exact Or.inr (tryServerMultiCore_none server now o cache h)
  · simp only [tryServerMulti, if_neg hskip] at h ⊢
    by_cases hd : (isServerMarkedDown server now cache).fst = true
    · simp [hd]
    · simp only [hd, if_false] at h ⊢
      exact Or.inr (tryServerMultiCore_none server now o _ h)

theorem tryServerMulti_pass (server : String) (now : Nat) (cache : HealthCache)
    (r : Resp) (hdown : (isServerMarkedDown server now cache).fst = false)
    (hlt : r.status < 500) :
    (tryServerMulti server now (.ok r) cache false).fst = some r := by
  simp only [tryServerMulti, if_neg, Bool.false_eq_true, not_false_eq_true, if_false]
  rw [if_neg (by simp [hdown])]
  simp [tryServerMultiCore, hlt]

/-- C5: across all three dispatch variants, a returned response always has
status `< 500` and is an attempt's response passed through as-is; a response
with status `< 500` makes the attempt succeed; and an attempt run fails only
when every issued attempt was a transport failure or a 5xx response (a 5xx
response is discarded, never returned). -/
theorem dispatch_status_semantics :
    (∀ (server : String) (outs : List AttemptOutcome) (r : Resp),
        (tryServerWorker server outs).fst = some r →
        r.status < 500 ∧ AttemptOutcome.ok r ∈ outs.take (RETRIES + 1)) ∧
    (∀ (server : String) (outs : List AttemptOutcome),
        (tryServerWorker server outs).fst = none ↔
        ∀ o ∈ outs.take (RETRIES + 1), isFailingOutcome o = true) ∧
    (∀ (name : String) (now : Nat) (rt : ℚ) (outs : List AttemptOutcome)
        (store : HealthStore) (r : Resp),
        (tryServerLB name now rt outs store).fst = some r →
        r.status < 500 ∧ AttemptOutcome.ok r ∈ outs.take (RETRIES + 1)) ∧
    (∀ (name : String) (now : Nat) (rt : ℚ) (outs : List AttemptOutcome)
        (store : HealthStore),
        (tryServerLB name now rt outs store).fst = none ↔
        ∀ o ∈ outs.take (RETRIES + 1), isFailingOutcome o = true) ∧
    (∀ (server : String) (now : Nat) (o : AttemptOutcome) (cache : HealthCache)
        (skip : Bool) (r : Resp),
        (tryServerMulti server now o cache skip).fst = some r →
        r.status < 500 ∧ o = AttemptOutcome.ok r) ∧
    (∀ (server : String) (now : Nat) (o : AttemptOutcome) (cache : HealthCache)
        (skip : Bool),
        (tryServerMulti server now o cache skip).fst = none →
        (tryServerMulti server now o cache skip).snd.snd = [] ∨
        isFailingOutcome o = true) ∧
    (∀ (server : String) (now : Nat) (cache : HealthCache) (r : Resp),
        (isServerMarkedDown server now cache).fst = false → r.status < 500 →
        (tryServerMulti server now (.ok r) cache false).fst = some r) := by
  refine ⟨?_, ?_, ?_, ?_, ?_, ?_, ?_⟩
  · intro server outs r h
    exact tryServerWorkerGo_some server _ r h
  · intro server outs
    exact tryServerWorkerGo_none server _
  · intro name now rt outs store r h
    rw [tryServerLB, tryServerLBGo_fst] at h
    exact tryServerWorkerGo_some name _ r h
  · intro name now rt outs store
    rw [tryServerLB, tryServerLBGo_fst]
    exact tryServerWorkerGo_none name _
  · exact tryServerMulti_some
  · exact tryServerMulti_none_trace
  · intro server now cache r hdown hlt
    exact tryServerMulti_pass server now cache r hdown hlt

/-- Witness for C5: a first-attempt 204 response is returned as-is. -/
theorem dispatch_status_semantics_witness :
    (204 : Nat) < 500 ∧
    AttemptOutcome.ok ⟨204, "text/plain", "x"⟩ ∈
      ([AttemptOutcome.ok ⟨204, "text/plain", "x"⟩] : List AttemptOutcome).take (RETRIES + 1) :=
  dispatch_status_semantics.1 "s" [AttemptOutcome.ok ⟨204, "text/plain", "x"⟩]
    ⟨204, "text/plain", "x"⟩ (by decide)

theorem tryServerWorkerGo_failing_cons (server : String) (o : AttemptOutcome)
    (l : List AttemptOutcome) (hf : isFailingOutcome o = true) :
    tryServerWorkerGo server (o :: l)
      = ((tryServerWorkerGo server l).fst, server :: (tryServerWorkerGo server l).snd) := by
  cases o with
  | err => rfl
  | ok r =>
      have hge : ¬ (r.status < 500) := by
        simp only [isFailingOutcome, decide_eq_true_eq] at hf
        omega
      simp [tryServerWorkerGo, hge]

theorem tryServerWorkerGo_success_cons (server : String) (r : Resp)
    (l : List AttemptOutcome) (hlt : r.status < 500) :
    tryServerWorkerGo server (.ok r :: l) = (some r, [server]) := by
  simp [tryServerWorkerGo, hlt]

theorem tryServerLBGo_failing_cons (name : String) (now : Nat) (rt : ℚ)
    (store : HealthStore) (o : AttemptOutcome) (l : List AttemptOutcome)
    (hf : isFailingOutcome o = true) :
    tryServerLBGo name now rt store (o :: l)
      = ((tryServerLBGo name now rt store l).fst,
         (tryServerLBGo name now rt store l).snd.fst,
         name :: (tryServerLBGo name now rt store l).snd.snd) := by
  cases o with
  | err => rfl
  | ok r =>
      have hge : ¬ (r.status < 500) := by
        simp only [isFailingOutcome, decide_eq_true_eq] at hf
        omega
      simp [tryServerLBGo, hge]

theorem tryServerLBGo_success_cons (name : String) (now : Nat) (rt : ℚ)
    (store : HealthStore) (r : Resp) (l : List AttemptOutcome)
    (hlt : r.status < 500) :
    tryServerLBGo name now rt store (.ok r :: l)
      = (some r, hsRecordSuccess name rt store, [name]) := by
  simp [tryServerLBGo, hlt]

theorem tryServerMulti_trace_le (server : String) (now : Nat) (o : AttemptOutcome)
    (cache : HealthCache) (skip : Bool) :
    (tryServerMulti server now o cache skip).snd.snd.length ≤ 1 := by
  simp only [tryServerMulti]
  split
  · rw [tryServerMultiCore_trace]; simp
  · split
    · simp
    · rw [tryServerMultiCore_trace]; simp

/-- C6 counterexample: the health-adaptive `tryServer` of `load-balancer.js`
does retry the same server.  With a transport failure followed by a 200, the
second attempt's response is returned and the trace shows two network
attempts against the same server; a one-attempt-per-visit dispatcher would
have failed this visit. -/
theorem smart_variant_retries_cex :
    (tryServerLB "primary" 1000 50 [AttemptOutcome.err] initialStore).fst = none ∧
    (tryServerLB "primary" 1000 50
      [AttemptOutcome.err, AttemptOutcome.ok ⟨200, "text/html", "ok"⟩]
      initialStore).fst = some ⟨200, "text/html", "ok"⟩ ∧
    (tryServerLB "primary" 1000 50
      [AttemptOutcome.err, AttemptOutcome.ok ⟨200, "text/html", "ok"⟩]
      initialStore).snd.snd = ["primary", "primary"] :=
  ⟨rfl, rfl, rfl⟩

/-- C6(amended): the simple worker variant and the health-adaptive variant
both retry the same server (`RETRIES + 1` attempts before giving up, and a
success on the retry is returned); only the multi-app variant issues at most
one network attempt per `tryServer` call. -/
theorem retry_counts_per_variant :
    (∀ (server : String) (o1 o2 : AttemptOutcome) (rest : List AttemptOutcome),
       isFailingOutcome o1 = true → isFailingOutcome o2 = true →
       (tryServerWorker server (o1 :: o2 :: rest)).fst = none ∧
       (tryServerWorker server (o1 :: o2 :: rest)).snd = [server, server]) ∧
    (∀ (server : String) (o1 : AttemptOutcome) (r : Resp) (rest : List AttemptOutcome),
       isFailingOutcome o1 = true → r.status < 500 →
       (tryServerWorker server (o1 :: .ok r :: rest)).fst = some r) ∧
    (∀ (name : String) (now : Nat) (rt : ℚ) (o1 o2 : AttemptOutcome)
       (rest : List AttemptOutcome) (store : HealthStore),
       isFailingOutcome o1 = true → isFailingOutcome o2 = true →
       (tryServerLB name now rt (o1 :: o2 :: rest) store).fst = none ∧
       (tryServerLB name now rt (o1 :: o2 :: rest) store).snd.snd = [name, name]) ∧
    (∀ (name : String) (now : Nat) (rt : ℚ) (o1 : AttemptOutcome) (r : Resp)
       (rest : List AttemptOutcome) (store : HealthStore),
       isFailingOutcome o1 = true → r.status < 500 →
       (tryServerLB name now rt (o1 :: .ok r :: rest) store).fst = some r) ∧
    (∀ (server : String) (now : Nat) (o : AttemptOutcome) (cache : HealthCache)
       (skip : Bool),
       (tryServerMulti server now o cache skip).snd.snd.length ≤ 1) := by
  refine ⟨?_, ?_, ?_, ?_, tryServerMulti_trace_le⟩
  · intro server o1 o2 rest h1 h2
    have : tryServerWorker server (o1 :: o2 :: rest)
        = tryServerWorkerGo server [o1, o2] := rfl
    rw [this, tryServerWorkerGo_failing_cons server o1 [o2] h1,
      tryServerWorkerGo_failing_cons server o2 [] h2]
    exact ⟨rfl, rfl⟩
  · intro server o1 r rest h1 hlt
    have : tryServerWorker server (o1 :: .ok r :: rest)
        = tryServerWorkerGo server [o1, .ok r] := rfl
    rw [this, tryServerWorkerGo_failing_cons server o1 [.ok r] h1,
      tryServerWorkerGo_success_cons server r [] hlt]
  · intro name now rt o1 o2 rest store h1 h2
    have : tryServerLB name now rt (o1 :: o2 :: rest) store
        = tryServerLBGo name now rt store [o1, o2] := rfl
    rw [this, tryServerLBGo_failing_cons name now rt store o1 [o2] h1,
      tryServerLBGo_failing_cons name now rt store o2 [] h2]
    exact ⟨rfl, rfl⟩
  · intro name now rt o1 r rest store h1 hlt
    have : tryServerLB name now rt (o1 :: .ok r :: rest) store
        = tryServerLBGo name now rt store [o1, .ok r] := rfl
    rw [this, tryServerLBGo_failing_cons name now rt store o1 [.ok r] h1,
      tryServerLBGo_success_cons name now rt store r [] hlt]

/-- Witness for C6(amended): a failing first attempt plus a 201 retry. -/
theorem retry_counts_per_variant_witness :
    (tryServerLB "p" 7 3 [AttemptOutcome.err, AttemptOutcome.ok ⟨201, "a", "b"⟩]
      initialStore).fst = some ⟨201, "a", "b"⟩ :=
  retry_counts_per_variant.2.2.2.1 "p" 7 3 AttemptOutcome.err ⟨201, "a", "b"⟩ []
    initialStore (by decide) (by decide)

/-- One call of the health-adaptive `tryServer` as seen by the health store:
the attempt outcomes offered to the visit, the failure timestamp and the
measured response time. -/
structure Visit where
  outcomes : List AttemptOutcome
  now : Nat
  responseTime : ℚ

/-- A visit every attempt of which fails (transport error or 5xx). -/
def failingVisit (v : Visit) : Bool :=
  (v.outcomes.take (RETRIES + 1)).all isFailingOutcome

/-- The health store resulting from a sequence of `tryServer` visits to one
server in `load-balancer.js`. -/
def runVisits (name : String) (visits : List Visit) (store : HealthStore) :
    HealthStore :=
  visits.foldl (fun st v => (tryServerLB name v.now v.responseTime v.outcomes st).snd.fst)
    store

theorem tryServerLB_failing_store (name : String) (now : Nat) (rt : ℚ)
    (outs : List AttemptOutcome) (store : HealthStore)
    (hf : ∀ o ∈ outs.take (RETRIES + 1), isFailingOutcome o = true) :
    (tryServerLB name now rt outs store).snd.fst = hsRecordFailure name now store := by
  rcases tryServerLBGo_health name now rt store (outs.take (RETRIES + 1)) with
    ⟨_, h⟩ | ⟨r, hr, _⟩
  · exact h
  · exfalso
    have hnone : (tryServerLBGo name now rt store (outs.take (RETRIES + 1))).fst = none := by
      rw [tryServerLBGo_fst]
      exact (tryServerWorkerGo_none name _).mpr hf
    rw [hnone] at hr
    exact Option.noConfusion hr

theorem runVisits_failing (name : String) (visits : List Visit) :
    ∀ store : HealthStore, (∀ v ∈ visits, failingVisit v = true) →
      runVisits name visits store name
        = applyFailures (visits.map Visit.now) (store name) := by
  induction visits with
  | nil => intro store _; rfl
  | cons v vs ih =>
      intro store hf
      have hv := hf v (by simp)
      have hstep : (tryServerLB name v.now v.responseTime v.outcomes store).snd.fst
          = hsRecordFailure name v.now store := by
        apply tryServerLB_failing_store
        intro o ho
        exact List.all_eq_true.mp hv o ho
      have : runVisits name (v :: vs) store
          = runVisits name vs (hsRecordFailure name v.now store) := by
        simp only [runVisits, List.foldl_cons, hstep]
      rw [this, ih _ (fun w hw => hf w (by simp [hw])), List.map_cons,
        applyFailures_cons]
      have hpoint : hsRecordFailure name v.now store name
          = recordFailureRec v.now (store name) := by
        simp [hsRecordFailure, hsUpdate]
      rw [hpoint]

/-- C10: each health-adaptive `tryServer` visit performs exactly one health
update — `recordSuccess` when some attempt returned a status `< 500`,
otherwise `recordFailure` once after all attempts — so `failures` counts
failed visits, not failed network attempts, and the circuit opens after
`FAILURE_THRESHOLD` failed visits regardless of per-visit retries. -/
theorem one_health_update_per_visit :
    (∀ (name : String) (now : Nat) (rt : ℚ) (outs : List AttemptOutcome)
        (store : HealthStore),
       ((tryServerLB name now rt outs store).fst = none ∧
        (tryServerLB name now rt outs store).snd.fst = hsRecordFailure name now store) ∨
       (∃ r, (tryServerLB name now rt outs store).fst = some r ∧
        (tryServerLB name now rt outs store).snd.fst = hsRecordSuccess name rt store)) ∧
    (∀ (name : String) (visits : List Visit) (store : HealthStore),
       (∀ v ∈ visits, failingVisit v = true) →
       ((runVisits name visits store) name).failures
         = (store name).failures + visits.length) ∧
    (∀ (name : String) (visits : List Visit) (store : HealthStore),
       (∀ v ∈ visits, failingVisit v = true) →
       (store name).failures = 0 → visits.length = FAILURE_THRESHOLD →
       ((runVisits name visits store) name).circuitOpen = true) := by
  refine ⟨?_, ?_, ?_⟩
  · intro name now rt outs store
    exact tryServerLBGo_health name now rt store (outs.take (RETRIES + 1))
  · intro name visits store hf
    rw [runVisits_failing name visits store hf, failures_applyFailures]
    simp
  · intro name visits store hf h0 hlen
    rw [runVisits_failing name visits store hf]
    apply circuitOpen_applyFailures
    · intro hnil
      have := congrArg List.length hnil
      simp [hlen] at this
      simp [FAILURE_THRESHOLD] at this
    · rw [h0]
      simp [hlen]

/-- A visit whose both attempts fail (one transport error, one 503). -/
def cexFailVisit : Visit :=
  { outcomes := [.err, .ok ⟨503, "text/html", "oops"⟩], now := 10, responseTime := 1 }

/-- Witness for C10: three failed visits (six failed attempts) open the
circuit. -/
theorem one_health_update_per_visit_witness :
    ((runVisits "primary" [cexFailVisit, cexFailVisit, cexFailVisit] initialStore)
      "primary").circuitOpen = true :=
  one_health_update_per_visit.2.2 "primary" [cexFailVisit, cexFailVisit, cexFailVisit]
    initialStore (by decide) (by decide) (by decide)

/-- Primary/backup pair for one app (one tenant's backend set). -/
structure AppConfig where
  primary : String
  backup : String
deriving DecidableEq, Repr

/-- The request fields the top-level handlers inspect: the URL hostname and
whether an `Upgrade: websocket` header is present (after lowercasing). -/
structure Request where
  host : String
  upgradeWebsocket : Bool
deriving DecidableEq, Repr

/-- The `APPS` table of `part_001`. -/
def APPS_001 : List (String × AppConfig) :=
  [("terminal.eqtrader.app",
    { primary := "terminal-primary.equidity.app",
      backup := "terminal-failover.equidity.app" }),
   ("admin.eqtrader.app",
    { primary := "admin-primary.equidity.app",
      backup := "admin-failover.equidity.app" }),
   ("api.eqtrader.app",
    { primary := "api-primary.equidity.app",
      backup := "api-failover.equidity.app" }),
   ("socket.eqcore.app",
    { primary := "eqcore-socket.primary.equidity.app",
      backup := "eqcore-socket.failover.equidity.app" }),
   ("api.eqcore.app",
    { primary := "eqcore-api.primary.equidity.app",
      backup := "eqcore-api.failover.equidity.app" })]

/-- The fixed 404 body returned for an unconfigured hostname. -/
def notConfiguredResp : Resp :=
  { status := 404, contentType := "text/html",
    body := "<!DOCTYPE html><html><head><title>Not Found</title></head><body><h1>App Not Configured</h1><p>This domain is not configured in the load balancer.</p></body></html>" }

/-- The fixed 503 body of `part_001`. -/
def unavailableResp001 : Resp :=
  { status := 503, contentType := "text/html",
    body := "<!DOCTYPE html><html><head><title>Service Unavailable</title></head><body><h1>Service Temporarily Unavailable</h1><p>Please try again later.</p></body></html>" }

/-- The fixed 503 body of `multi-app-config.js`. -/
def unavailableRespMulti : Resp :=
  { status := 503, contentType := "text/html",
    body := "<!DOCTYPE html><html><head><title>Service Unavailable</title></head><body style=\"font-family: system-ui; display: flex; justify-content: center; align-items: center; height: 100vh; margin: 0;\"><div style=\"text-align: center;\"><h1>Service Temporarily Unavailable</h1><p>We are experiencing technical difficulties. Please try again in a moment.</p></div></body></html>" }

/-- `handleWebSocket` of `part_001`: plain fetch to the primary, passed
through only on a 101; otherwise the backup fetch's promise is returned
directly, so a backup transport failure propagates as an exception. -/
def handleWebSocket001 (cfg : AppConfig) (pOut bOut : AttemptOutcome) :
    Except Unit Resp × List String :=
  match pOut with
  | .ok r =>
    if r.status = 101 then (.ok r, [cfg.primary])
    else
      match bOut with
      | .ok r2 => (.ok r2, [cfg.primary, cfg.backup])
      | .err => (.error (), [cfg.primary, cfg.backup])
  | .err =>
    match bOut with
    | .ok r2 => (.ok r2, [cfg.primary, cfg.backup])
    | .err => (.error (), [cfg.primary, cfg.backup])

/-- The top-level `fetch` of `part_001`: hostname lookup (404 on miss),
WebSocket branch, then primary and backup `tryServer` with a fixed 503 when
both fail.  The trace accumulates the network attempts issued. -/
def multiWorkerFetch (req : Request) (pOuts bOuts : List AttemptOutcome)
    (wsP wsB : AttemptOutcome) : Except Unit Resp × List String :=
  match List.lookup req.host APPS_001 with
  | none => (.ok notConfiguredResp, [])
  | some cfg =>
    if req.upgradeWebsocket then handleWebSocket001 cfg wsP wsB
    else
      let t1 := tryServerWorker cfg.primary pOuts
      match t1.fst with
      | some r => (.ok r, t1.snd)
      | none =>
        let t2 := tryServerWorker cfg.backup bOuts
        match t2.fst with
        | some r => (.ok r, t1.snd ++ t2.snd)
        | none => (.ok unavailableResp001, t1.snd ++ t2.snd)

/-- The `APPS` table of `multi-app-config.js`. -/
def APPS_MULTI : List (String × AppConfig) :=
  [("terminal.eqtrader.app",
    { primary := "eqtrader-terminal.primary.equidity.app",
      backup := "eqtrader-terminal.failover.equidity.app" }),
   ("admin.eqtrader.app",
    { primary := "admin-primary.equidity.app",
      backup := "admin-failover.equidity.app" }),
   ("api.eqtrader.app",
    { primary := "api-primary.equidity.app",
      backup := "api-failover.equidity.app" }),
   ("socket.eqcore.app",
    { primary := "eqcore-socket.primary.equidity.app",
      backup := "eqcore-socket.failover.equidity.app" }),
   ("api.eqcore.app",
    { primary := "eqcore-api.primary.equidity.app",
      backup := "eqcore-api.failover.equidity.app" }),
   ("admin.eqcore.app",
    { primary := "eqcore-admin.primary.equidity.app",
      backup := "eqcore-admin.failover.equidity.app" })]

/-- `TERMINAL_CONFIG` of `multi-app-config.js`. -/
def TERMINAL_CONFIG : AppConfig :=
  { primary := "eqtrader-terminal.primary.equidity.app",
    backup := "eqtrader-terminal.failover.equidity.app" }

def TERMINAL_DOMAIN : String := "eqtrader.app"

/-- `WHITE_LABEL_CONFIG` of `multi-app-config.js`. -/
def WHITE_LABEL_CONFIG : AppConfig :=
  { primary := "eqcore-client.primary.equidity.app",
    backup := "eqcore-client.failover.equidity.app" }

def WHITE_LABEL_DOMAIN : String := "equidity.cloud"

/-- `getConfig` of `multi-app-config.js`: exact `APPS` match, then terminal
wildcard, then white-label wildcard, with the white-label config as the
catch-all for Cloudflare SaaS custom hostnames (so every hostname resolves). -/
def multiAppGetConfig (host : String) : Option AppConfig :=
  match List.lookup host APPS_MULTI with
  | some cfg => some cfg
  | none =>
    if host.endsWith ("." ++ TERMINAL_DOMAIN) then some TERMINAL_CONFIG
    else if host.endsWith ("." ++ WHITE_LABEL_DOMAIN) || host == WHITE_LABEL_DOMAIN then
      some WHITE_LABEL_CONFIG
    else some WHITE_LABEL_CONFIG

/-- The backup leg of `handleWebSocket` in `multi-app-config.js`: any
received response is marked up and returned as-is; a transport failure marks
the backup down and rethrows (`throw e`). -/
def wsBackupStep (backup : String) (now : Nat) (bOut : AttemptOutcome)
    (cache : HealthCache) (t : List String) :
    Except Unit Resp × HealthCache × List String :=
  match bOut with
  | .ok r => (.ok r, markServerUp backup cache, t ++ [backup])
  | .err => (.error (), markServerDown backup now cache, t ++ [backup])

/-- `handleWebSocket` of `multi-app-config.js`: primary attempted unless
marked down, passed through only on a 101 (a non-101 response falls through
without marking), then the backup leg. -/
def handleWebSocketMulti (cfg : AppConfig) (now : Nat) (pOut bOut : AttemptOutcome)
    (cache : HealthCache) : Except Unit Resp × HealthCache × List String :=
  let d := isServerMarkedDown cfg.primary now cache
  if d.fst then wsBackupStep cfg.backup now bOut d.snd []
  else
    match pOut with
    | .ok r =>
      if r.status = 101 then (.ok r, markServerUp cfg.primary d.snd, [cfg.primary])
      else wsBackupStep cfg.backup now bOut d.snd [cfg.primary]
    | .err => wsBackupStep cfg.backup now bOut (markServerDown cfg.primary now d.snd)
        [cfg.primary]

/-- The top-level `fetch` of `multi-app-config.js`: config lookup (the 404
branch is unreachable because `getConfig` always returns a config), the
WebSocket branch, then primary, backup, and the last-resort primary retry
with `skipHealthCheck = true`, falling back to the fixed 503. -/
def multiAppFetch (req : Request) (now : Nat)
    (pOut bOut lrOut wsP wsB : AttemptOutcome) (cache : HealthCache) :
    Except Unit Resp × HealthCache × List String :=
  match multiAppGetConfig req.host with
  | none => (.ok notConfiguredResp, cache, [])
  | some cfg =>
    if req.upgradeWebsocket then handleWebSocketMulti cfg now wsP wsB cache
    else
      let t1 := tryServerMulti cfg.primary now pOut cache false
      match t1.fst with
      | some r => (.ok r, t1.snd.fst, t1.snd.snd)
      | none =>
        let t2 := tryServerMulti cfg.backup now bOut t1.snd.fst false
        match t2.fst with
        | some r => (.ok r, t2.snd.fst, t1.snd.snd ++ t2.snd.snd)
        | none =>
          let t3 := tryServerMulti cfg.primary now lrOut t2.snd.fst true
          match t3.fst with
          | some r => (.ok r, t3.snd.fst, t1.snd.snd ++ t2.snd.snd ++ t3.snd.snd)
          | none => (.ok unavailableRespMulti, t3.snd.fst,
              t1.snd.snd ++ t2.snd.snd ++ t3.snd.snd)

/-- C9: an inbound request whose hostname has no entry in the `APPS` table of
`part_001` (the lookup finds no backend configuration) receives the fixed
404 App Not Configured response, with no backend attempted. -/
theorem unconfigured_host_404 (req : Request) (pOuts bOuts : List AttemptOutcome)
    (wsP wsB : AttemptOutcome)
    (h : List.lookup req.host APPS_001 = none) :
    multiWorkerFetch req pOuts bOuts wsP wsB = (.ok notConfiguredResp, []) ∧
    notConfiguredResp.status = 404 ∧
    notConfiguredResp.contentType = "text/html" := by
  refine ⟨?_, rfl, rfl⟩
  simp [multiWorkerFetch, h]

/-- Witness for C9 at an unknown hostname. -/
theorem unconfigured_host_404_witness :
    List.lookup "nope.example.com" APPS_001 = none ∧
    multiWorkerFetch ⟨"nope.example.com", false⟩ [] [] .err .err
      = (.ok notConfiguredResp, []) :=
  ⟨by decide,
   (unconfigured_host_404 ⟨"nope.example.com", false⟩ [] [] .err .err (by decide)).1⟩

theorem tryServerMulti_failing_none (server : String) (now : Nat) (o : AttemptOutcome)
    (cache : HealthCache) (skip : Bool) (hf : isFailingOutcome o = true) :
    (tryServerMulti server now o cache skip).fst = none := by
  cases hres : (tryServerMulti server now o cache skip).fst with
  | none => rfl
  | some r =>
      obtain ⟨hlt, ho⟩ := tryServerMulti_some server now o cache skip r hres
      subst ho
      simp only [isFailingOutcome, decide_eq_true_eq] at hf
      omega

theorem multiAppGetConfig_isSome (host : String) :
    ∃ cfg, multiAppGetConfig host = some cfg := by
  unfold multiAppGetConfig
  split
  · exact ⟨_, rfl⟩
  · split
    · exact ⟨_, rfl⟩
    · split
      · exact ⟨_, rfl⟩
      · exact ⟨_, rfl⟩

/-- C7 counterexample: on the WebSocket upgrade path with both upgrade
attempts failing, `handleWebSocket`'s backup leg rethrows, and the top-level
`fetch` of `multi-app-config.js` returns that exception rather than a 503:
an exception does propagate out of the handler. -/
theorem websocket_exception_cex :
    (multiAppFetch ⟨"api.eqcore.app", true⟩ 1000 .err .err .err .err .err
      emptyCache).fst = .error () := rfl

/-- C7(amended): on the HTTP (non-upgrade) path, when the primary, backup and
last-resort attempts all fail, the handler returns the fixed synthetic 503
text/html response and no exception escapes; the WebSocket path, by
contrast, can propagate the backup failure. -/
theorem http_total_failure_returns_503 (req : Request) (now : Nat)
    (pOut bOut lrOut wsP wsB : AttemptOutcome) (cache : HealthCache)
    (hup : req.upgradeWebsocket = false)
    (h1 : isFailingOutcome pOut = true) (h2 : isFailingOutcome bOut = true)
    (h3 : isFailingOutcome lrOut = true) :
    (multiAppFetch req now pOut bOut lrOut wsP wsB cache).fst
      = .ok unavailableRespMulti ∧
    unavailableRespMulti.status = 503 ∧
    unavailableRespMulti.contentType = "text/html" := by
  refine ⟨?_, rfl, rfl⟩
  obtain ⟨cfg, hcfg⟩ := multiAppGetConfig_isSome req.host
  simp only [multiAppFetch, hcfg, hup, Bool.false_eq_true, if_false]
  rw [tryServerMulti_failing_none cfg.primary now pOut cache false h1,
    tryServerMulti_failing_none cfg.backup now bOut _ false h2,
    tryServerMulti_failing_none cfg.primary now lrOut _ true h3]

/-- Witness for C7(amended) with every attempt a transport failure. -/
theorem http_total_failure_returns_503_witness :
    (multiAppFetch ⟨"api.eqcore.app", false⟩ 1000 .err .err .err .err .err
      emptyCache).fst = .ok unavailableRespMulti :=
  (http_total_failure_returns_503 ⟨"api.eqcore.app", false⟩ 1000 .err .err .err
    .err .err emptyCache rfl rfl rfl rfl).1

theorem isServerMarkedDown_inside_ttl (server : String) (T now : Nat)
    (cache : HealthCache) (h : now < T + HEALTH_CACHE_TTL * 1000) :
    isServerMarkedDown server now (markServerDown server T cache)
      = (true, markServerDown server T cache) := by
  have hlook : (markServerDown server T cache) server
      = some { isDown := true, expiry := T + HEALTH_CACHE_TTL * 1000 } := by
    simp [markServerDown, cacheUpdate]
  simp only [isServerMarkedDown, hlook]
  rw [if_neg (by simp; omega)]

theorem isServerMarkedDown_expired (server : String) (T now : Nat)
    (cache : HealthCache) (h : T + HEALTH_CACHE_TTL * 1000 < now) :
    isServerMarkedDown server now (markServerDown server T cache)
      = (false, cacheUpdate (markServerDown server T cache) server none) := by
  have hlook : (markServerDown server T cache) server
      = some { isDown := true, expiry := T + HEALTH_CACHE_TTL * 1000 } := by
    simp [markServerDown, cacheUpdate]
  simp only [isServerMarkedDown, hlook]
  rw [if_pos (by simpa using h)]

/-- C8 counterexample: the primary is marked down at T = 1000 and the request
arrives at now = 2000, well inside the TTL — yet the last-resort step
(`skipHealthCheck = true`) issues a network attempt against the primary and
returns its response, so the skip does not hold for every attempt of the
request. -/
theorem last_resort_bypasses_down_cache_cex :
    (2000 : Nat) < 1000 + HEALTH_CACHE_TTL * 1000 ∧
    (multiAppFetch ⟨"api.eqcore.app", false⟩ 2000 (.ok ⟨200, "text/plain", "up"⟩)
        .err (.ok ⟨200, "text/plain", "hi"⟩) .err .err
        (markServerDown "eqcore-api.primary.equidity.app" 1000 emptyCache)).fst
      = .ok ⟨200, "text/plain", "hi"⟩ ∧
    (multiAppFetch ⟨"api.eqcore.app", false⟩ 2000 (.ok ⟨200, "text/plain", "up"⟩)
        .err (.ok ⟨200, "text/plain", "hi"⟩) .err .err
        (markServerDown "eqcore-api.primary.equidity.app" 1000 emptyCache)).snd.snd
      = ["eqcore-api.failover.equidity.app", "eqcore-api.primary.equidity.app"] := by
  refine ⟨by decide, rfl, rfl⟩

/-- C8(amended): a down-cache-guarded `tryServer` call (the primary and
backup legs) on a server marked down at T is skipped with no network attempt
and an unchanged cache for any request strictly before `T + TTL`, and
attempts the server again strictly after `T + TTL` (the entry being deleted
lazily by the read); the last-resort call passes `skipHealthCheck = true`
and always issues its network attempt. -/
theorem down_cache_skip_semantics :
    (∀ (server : String) (T now : Nat) (cache : HealthCache) (o : AttemptOutcome),
       now < T + HEALTH_CACHE_TTL * 1000 →
       tryServerMulti server now o (markServerDown server T cache) false
         = (none, markServerDown server T cache, [])) ∧
    (∀ (server : String) (T now : Nat) (cache : HealthCache) (o : AttemptOutcome),
       T + HEALTH_CACHE_TTL * 1000 < now →
       (tryServerMulti server now o (markServerDown server T cache) false).snd.snd
         = [server]) ∧
    (∀ (server : String) (T now : Nat) (cache : HealthCache),
       T + HEALTH_CACHE_TTL * 1000 < now →
       isServerMarkedDown server now (markServerDown server T cache)
         = (false, cacheUpdate (markServerDown server T cache) server none)) ∧
    (∀ (server : String) (now : Nat) (o : AttemptOutcome) (cache : HealthCache),
       (tryServerMulti server now o cache true).snd.snd = [server]) := by
  refine ⟨?_, ?_, isServerMarkedDown_expired, ?_⟩
  · intro server T now cache o h
    simp only [tryServerMulti, Bool.false_eq_true, if_false]
    rw [isServerMarkedDown_inside_ttl server T now cache h]
    rfl
  · intro server T now cache o h
    simp only [tryServerMulti, Bool.false_eq_true, if_false]
    rw [isServerMarkedDown_expired server T now cache h]
    exact tryServerMultiCore_trace server now o _
  · intro server now o cache
    exact tryServerMultiCore_trace server now o cache

/-- Witness for C8(amended): a request 29 seconds into the TTL is skipped. -/
theorem down_cache_skip_semantics_witness :
    (2000 : Nat) < 1000 + HEALTH_CACHE_TTL * 1000 ∧
    tryServerMulti "s" 2000 (.ok ⟨200, "t", "b"⟩)
      (markServerDown "s" 1000 emptyCache) false
      = (none, markServerDown "s" 1000 emptyCache, []) :=
  ⟨by decide,
   down_cache_skip_semantics.1 "s" 1000 2000 emptyCache (.ok ⟨200, "t", "b"⟩)
     (by decide)⟩

end LB
